import Mathlib

/-!
Verification of the version-resolution and vulnerability-planning core of
`fix-react2shell-next`, a CLI that detects vulnerable Next.js / React RSC
dependency versions and computes minimal fix versions.

The definitions below are a shallow embedding of the JavaScript sources:
  * the version model (`lib/utils/version.js`): `parseVersion`,
    `compareVersions`, `isUnparseableVersionSpec`, `hasRangeSpecifier`,
    `hasUnsupportedRange`, `getVersionPrefix`, `applyVersionPrefix`;
  * the manifest analyzer and planner (`lib/index.js`):
    `analyzePackageJson`'s per-package loop, `computeMinimalFixes`,
    `applyFixes`;
  * the lock-file scanner (`lib/utils/lockfile-scanner.js`):
    `parseNpmLockfile`, `parseYarnLockfile`, `parsePnpmLockfile`,
    `analyzeLockfile`.

JavaScript strings are modelled as Lean `String` (processed as `List Char`),
JS `null`/`undefined`-or-string values as `Option String`, and JS truthiness
of such values by the `truthy` predicate (absent or empty string is falsy).
Exceptions caught at a parser boundary (file read / `JSON.parse`) are
modelled by an `Except` input to the parser. The advisory modules themselves
live outside the analyzed sources, so advisory rules are passed as explicit
values (`Advisory`), exactly as the analyzer consumes them.
-/

namespace FixReact2Shell

/-- JS whitespace characters relevant to `trim()` and `\s` (ASCII subset). -/
def isWsChar (c : Char) : Bool :=
  c == ' ' || c == '\t' || c == '\n' || c == '\r' || c == '\x0b' || c == '\x0c'

/-- A character of the specifier-operator class `[\^~>=<]`. -/
def isOpChar (c : Char) : Bool :=
  c == '^' || c == '~' || c == '>' || c == '=' || c == '<'

/-- `version.replace(/^[\^~>=<]+/, '')`: drop the maximal leading operator run. -/
def dropOps (l : List Char) : List Char := l.dropWhile isOpChar

/-- `String.prototype.trim()` on a character list. -/
def trimChars (l : List Char) : List Char :=
  ((l.dropWhile isWsChar).reverse.dropWhile isWsChar).reverse

/-- The cleaned form used throughout `version.js`:
`version.replace(/^[\^~>=<]+/, '').trim()`. -/
def cleanedOf (s : String) : List Char := trimChars (dropOps s.data)

/-- Read a maximal digit run as a decimal number (base accumulator `acc`). -/
def readNat : List Char → Nat → Nat × List Char
  | c :: rest, acc =>
    if c.isDigit then readNat rest (10 * acc + (c.toNat - 48)) else (acc, c :: rest)
  | [], acc => (acc, [])

/-- `\d+` at the head of the input: at least one digit, maximal munch. -/
def takeDigits (l : List Char) : Option (Nat × List Char) :=
  match l with
  | c :: _ => if c.isDigit then some (readNat l 0) else none
  | [] => none

/-- Release channel of a parsed version: `-canary.N`, `-rc.N`, or stable. -/
inductive VChannel where
  | canary (seq : Nat)
  | rc (seq : Nat)
  | stable
deriving DecidableEq, Repr

/-- The object produced by `parseVersion`: `{major, minor, patch, ...}` with
the channel flag/counter and the cleaned `raw` string. -/
structure ParsedVersion where
  major : Nat
  minor : Nat
  patch : Nat
  channel : VChannel
  raw : String
deriving DecidableEq, Repr

/-- The `-canary.N` / `-rc.N` / end-of-string suffix after `MAJOR.MINOR.PATCH`. -/
def parseSuffix : List Char → Option VChannel
  | [] => some .stable
  | '-' :: 'c' :: 'a' :: 'n' :: 'a' :: 'r' :: 'y' :: '.' :: r =>
    match takeDigits r with
    | some (n, []) => some (.canary n)
    | _ => none
  | '-' :: 'r' :: 'c' :: '.' :: r =>
    match takeDigits r with
    | some (n, []) => some (.rc n)
    | _ => none
  | _ => none

/-- The three anchored version grammars of `parseVersion`:
`^(\d+)\.(\d+)\.(\d+)$`, `...-rc\.(\d+)$`, `...-canary\.(\d+)$`. -/
def parseVersionChars (l : List Char) : Option ParsedVersion :=
  match takeDigits l with
  | none => none
  | some (maj, r1) =>
    match r1 with
    | '.' :: r2 =>
      match takeDigits r2 with
      | none => none
      | some (mino, r3) =>
        match r3 with
        | '.' :: r4 =>
          match takeDigits r4 with
          | none => none
          | some (pat, r5) =>
            match parseSuffix r5 with
            | some ch => some ⟨maj, mino, pat, ch, String.mk l⟩
            | none => none
        | _ => none
    | _ => none

/-- `parseVersion(version)` of `version.js`: strip a leading operator run,
trim, then match the stable / rc / canary grammars; anything else is `none`
(the JS `null`). The empty string is falsy in JS and returns `null`. -/
def parseVersion (version : String) : Option ParsedVersion :=
  if version = "" then none
  else parseVersionChars (cleanedOf version)

/-- `getPreReleaseOrder` inside `compareVersions`: canary 0, rc 1, stable 2. -/
def channelOrder : VChannel → Nat
  | .canary _ => 0
  | .rc _ => 1
  | .stable => 2

/-- `compareVersions` on two already-parsed versions: numeric
major/minor/patch first, then channel order, then the rc/canary sequence. -/
def compareParsed (a b : ParsedVersion) : Int :=
  if a.major ≠ b.major then (a.major : Int) - b.major
  else if a.minor ≠ b.minor then (a.minor : Int) - b.minor
  else if a.patch ≠ b.patch then (a.patch : Int) - b.patch
  else if channelOrder a.channel ≠ channelOrder b.channel then
    (channelOrder a.channel : Int) - channelOrder b.channel
  else
    match a.channel, b.channel with
    | .canary i, .canary j => (i : Int) - j
    | .rc i, .rc j => (i : Int) - j
    | _, _ => 0

/-- `compareVersions(a, b)` on version strings: parse both; if either fails
to parse the comparison is `0`. -/
def compareVersions (a b : String) : Int :=
  match parseVersion a, parseVersion b with
  | some va, some vb => compareParsed va vb
  | _, _ => 0

/-- ASCII `toLowerCase`. -/
def toLowerChars (l : List Char) : List Char := l.map Char.toLower

/-- `pat` occurs as a contiguous sublist of `l` (JS `String.includes`). -/
def listInfix (pat : List Char) : List Char → Bool
  | [] => pat.isEmpty
  | c :: rest => pat.isPrefixOf (c :: rest) || listInfix pat rest

/-- `isUnparseableVersionSpec(version)`: the sentinel words, aliasing
prefixes, and path-like specifiers that cannot be resolved locally. -/
def isUnparseableVersionSpec (version : String) : Bool :=
  if version = "" then true
  else
    let cleaned := toLowerChars (trimChars (dropOps version.data))
    cleaned == "latest".data || cleaned == "next".data || cleaned == "canary".data ||
    cleaned == "*".data || cleaned == "x".data ||
    ("npm:".data).isPrefixOf cleaned ||
    ("catalog:".data).isPrefixOf cleaned ||
    ("workspace:".data).isPrefixOf cleaned ||
    cleaned.contains '/'

/-- `hasRangeSpecifier(version)`: a leading operator on the trimmed string,
an embedded space, or an OR range. -/
def hasRangeSpecifier (version : String) : Bool :=
  if version = "" then false
  else
    (match (version.data).dropWhile isWsChar with
     | c :: _ => isOpChar c
     | [] => false) ||
    listInfix [' '] version.data ||
    listInfix ['|', '|'] version.data

/-- One attempted match of `\d\s+-\s+\d` at the head of the input. -/
def hyphenMatchAt : List Char → Bool
  | c :: rest =>
    c.isDigit &&
      (match rest with
       | d :: r1 =>
         isWsChar d &&
           (match r1.dropWhile isWsChar with
            | '-' :: r2 =>
              (match r2 with
               | e :: r3 =>
                 isWsChar e &&
                   (match r3.dropWhile isWsChar with
                    | f :: _ => f.isDigit
                    | [] => false)
               | [] => false)
            | _ => false)
       | [] => false)
  | [] => false

/-- Try a head-anchored matcher at every suffix (unanchored regex search). -/
def scanAny (p : List Char → Bool) : List Char → Bool
  | [] => p []
  | c :: rest => p (c :: rest) || scanAny p rest

/-- The `/\d\s+-\s+\d/` test of `hasUnsupportedRange` (hyphen ranges). -/
def hyphenRangePattern (s : String) : Bool := scanAny hyphenMatchAt s.data

/-- The `version.includes('||')` test of `hasUnsupportedRange` (OR ranges). -/
def orRangePattern (s : String) : Bool := listInfix ['|', '|'] s.data

/-- The `/\d+\.x|\.x\.|x$|\.\*|\*$/i` test of `hasUnsupportedRange`
(x-ranges), evaluated on the lower-cased string. -/
def xRangePattern (s : String) : Bool :=
  let ll := toLowerChars s.data
  scanAny
    (fun suf =>
      match suf with
      | a :: '.' :: 'x' :: _ => a.isDigit
      | _ => false) ll ||
  listInfix ['.', 'x', '.'] ll ||
  ll.getLast? == some 'x' ||
  listInfix ['.', '*'] ll ||
  ll.getLast? == some '*'

/-- The `/^<[^=]/ || /^<=/` test of `hasUnsupportedRange`: a leading `<`
followed by at least one more character (of any kind). -/
def lessThanPattern (s : String) : Bool :=
  match s.data with
  | '<' :: _ :: _ => true
  | _ => false

/-- Reason tag carried by an `unsupported` classification. -/
inductive RangeReason where
  | hyphenRange
  | orRange
  | xRange
  | lessThanRange
deriving DecidableEq, Repr

/-- `hasUnsupportedRange(version)`: `none` models `{unsupported: false}`,
`some r` models `{unsupported: true, reason: r}`. The four checks run in
source order: hyphen, OR, x-range, less-than. -/
def hasUnsupportedRange (version : String) : Option RangeReason :=
  if version = "" then none
  else if hyphenRangePattern version then some .hyphenRange
  else if orRangePattern version then some .orRange
  else if xRangePattern version then some .xRange
  else if lessThanPattern version then some .lessThanRange
  else none

/-- `getVersionPrefix(version)`: the regex `^([\^~]|>=?)` — only `^`, `~`,
`>=`, `>` are extracted; everything else (including `<`, `<=`) yields `""`. -/
def getVersionPrefix (version : String) : String :=
  match version.data with
  | c :: rest =>
    if c = '^' then "^"
    else if c = '~' then "~"
    else if c = '>' then (if rest.head? = some '=' then ">=" else ">")
    else ""
  | [] => ""

/-- `applyVersionPrefix(originalVersion, newVersion)`: exact pin when the
original range is unsupported, otherwise re-attach the extracted operator. -/
def applyVersionPrefix (originalVersion newVersion : String) : String :=
  match hasUnsupportedRange originalVersion with
  | some _ => newVersion
  | none => getVersionPrefix originalVersion ++ newVersion

/-- JS truthiness of a nullable string value: `null`/`undefined` and `""`
are falsy. -/
def truthy : Option String → Bool
  | some s => s != ""
  | none => false

/-- `x?.field || null` for a nullable string field: empty strings collapse
to `null`. -/
def optTruthy : Option String → Option String
  | some s => if s != "" then some s else none
  | none => none

/-- One matched-advisory record as pushed into `affectedCves` by
`analyzePackageJson` (`lib/index.js`): id, severity and the nullable
patched/alternative/note fields. -/
structure CveMatch where
  id : String
  severity : String
  patchedVersion : Option String
  alternative : Option String
  note : Option String
deriving DecidableEq, Repr

/-- One per-package vulnerability record as pushed into
`vulnerablePackages` by `analyzePackageJson`. `patched`/`note` at record
level are set only on the UNKNOWN-advisory path. -/
structure VulnRecord where
  package : String
  current : String
  cves : List CveMatch
  patched : Option String
  note : Option String
  inDeps : Bool
  inDevDeps : Bool
deriving DecidableEq, Repr

/-- The analysis result for one `package.json` file. -/
structure FileAnalysis where
  path : String
  name : String
  vulnerabilities : List VulnRecord
deriving DecidableEq, Repr

/-- One planned fix, as produced by `computeMinimalFixes`. -/
structure Fix where
  package : String
  current : String
  patched : Option String
  cves : List String
  note : Option String
  alternative : Option String
  inDeps : Bool
  inDevDeps : Bool
deriving DecidableEq, Repr

/-- The fixes planned for one file. -/
structure FileFixes where
  path : String
  name : String
  fixes : List Fix
deriving DecidableEq, Repr

/-- The inner accumulation of `computeMinimalFixes`:
`if (cve.patchedVersion) { if (!highestVersion || compareVersions(...) > 0) ... }`. -/
def cmfHighestStep (acc : Option String) (cve : CveMatch) : Option String :=
  match cve.patchedVersion with
  | some p =>
    if p != "" then
      match acc with
      | none => some p
      | some h => if compareVersions p h > 0 then some p else acc
    else acc
  | none => acc

/-- The highest patched version across one package's matched advisories,
under full `compareVersions` comparison (`computeMinimalFixes`). -/
def highestPatched (cves : List CveMatch) : Option String :=
  cves.foldl cmfHighestStep none

/-- `notes` collection of `computeMinimalFixes`: first truthy note wins. -/
def firstNote (cves : List CveMatch) : Option String :=
  (cves.filterMap fun c => optTruthy c.note).head?

/-- `alternatives` collection of `computeMinimalFixes`: first truthy wins. -/
def firstAlternative (cves : List CveMatch) : Option String :=
  (cves.filterMap fun c => optTruthy c.alternative).head?

/-- The per-vulnerability body of `computeMinimalFixes`. -/
def fixOfVuln (vuln : VulnRecord) : Fix :=
  { package := vuln.package
    current := vuln.current
    patched := highestPatched vuln.cves
    cves := vuln.cves.map (·.id)
    note := firstNote vuln.cves
    alternative := firstAlternative vuln.cves
    inDeps := vuln.inDeps
    inDevDeps := vuln.inDevDeps }

/-- `computeMinimalFixes(analysisResults)` (`lib/index.js`): one `Fix` per
vulnerability record, grouped per file, files with no fixes dropped. -/
def computeMinimalFixes (analysisResults : List FileAnalysis) : List FileFixes :=
  analysisResults.filterMap fun file =>
    match file.vulnerabilities.map fixOfVuln with
    | [] => none
    | f :: fs => some { path := file.path, name := file.name, fixes := f :: fs }

/-- One entry extracted from a lock file: `{name, version, resolved}`. -/
structure LfEntry where
  name : String
  version : String
  resolved : Option String
deriving DecidableEq, Repr

/-- One CVE record as produced by `checkPackageVulnerability`
(`lockfile-scanner.js`), including the advisory description. -/
structure LfCve where
  id : String
  severity : String
  description : String
  patchedVersion : Option String
  alternative : Option String
  note : Option String
deriving DecidableEq, Repr

/-- One vulnerable-package record of `analyzeLockfile`. -/
structure LfVulnPkg where
  package : String
  currentVersion : String
  patchedVersion : Option String
  cves : List String
  severity : String
  resolved : Option String
deriving DecidableEq, Repr

/-- The dedup key of `analyzeLockfile`: `` `${pkg.name}@${pkg.version}` ``. -/
def lfKey (e : LfEntry) : String := e.name ++ "@" ++ e.version

/-- The "highest patched version" accumulation inside `analyzeLockfile`:
unlike `computeMinimalFixes` it compares candidates by the parsed
major/minor/patch triple only. -/
def lfHighestStep (acc : Option String) (cve : LfCve) : Option String :=
  match cve.patchedVersion with
  | some p =>
    if p != "" then
      match acc with
      | none => some p
      | some h =>
        match parseVersion p, parseVersion h with
        | some cur, some hi =>
          if cur.major > hi.major
              || (cur.major == hi.major && cur.minor > hi.minor)
              || (cur.major == hi.major && cur.minor == hi.minor && cur.patch > hi.patch)
          then some p else acc
        | _, _ => acc
    else acc
  | none => acc

/-- The reduced patched version of `analyzeLockfile` for one package. -/
def lfHighestPatched (cves : List LfCve) : Option String :=
  cves.foldl lfHighestStep none

/-- The vulnerable-package record `analyzeLockfile` pushes for a newly
seen entry with a non-empty CVE list `c :: cs`: the reduced patched
version, all CVE ids, and the first CVE's severity. -/
def lfMkRecord (e : LfEntry) (c : LfCve) (cs : List LfCve) : LfVulnPkg :=
  { package := e.name
    currentVersion := e.version
    patchedVersion := lfHighestPatched (c :: cs)
    cves := (c :: cs).map (·.id)
    severity := c.severity
    resolved := e.resolved }

/-- The scan loop of `analyzeLockfile`: deduplicate on `name@version` via
the `seenPackages` set, query the advisories (`checkPkg` stands for
`checkPackageVulnerability`, whose advisory modules are external), and emit
one record per newly seen vulnerable pair. -/
def analyzeLockfileLoop (checkPkg : String → String → List LfCve) :
    List LfEntry → List String → List LfVulnPkg
  | [], _ => []
  | e :: rest, seen =>
    if seen.contains (lfKey e) then
      analyzeLockfileLoop checkPkg rest seen
    else
      match checkPkg e.name e.version with
      | [] => analyzeLockfileLoop checkPkg rest (lfKey e :: seen)
      | c :: cs => lfMkRecord e c cs :: analyzeLockfileLoop checkPkg rest (lfKey e :: seen)

/-- The scanned lock file handed to `analyzeLockfile`. -/
structure LockfileData where
  lockfile : String
  path : String
  packages : List LfEntry
deriving DecidableEq, Repr

/-- The result of `analyzeLockfile`. -/
structure LfAnalysis where
  lockfile : String
  path : String
  vulnerabilities : List LfVulnPkg
deriving DecidableEq, Repr

/-- `analyzeLockfile(lockfileData)` (`lockfile-scanner.js`), with the
advisory consultation `checkPackageVulnerability` passed in as `checkPkg`. -/
def analyzeLockfile (checkPkg : String → String → List LfCve)
    (lockfileData : LockfileData) : Option LfAnalysis :=
  match analyzeLockfileLoop checkPkg lockfileData.packages [] with
  | [] => none
  | v :: vs =>
    some { lockfile := lockfileData.lockfile
           path := lockfileData.path
           vulnerabilities := v :: vs }

/-- The watch-list of `lockfile-scanner.js`: `REACT_PACKAGES`. -/
def REACT_PACKAGES : List String :=
  ["react", "react-dom", "react-server-dom-webpack",
   "react-server-dom-parcel", "react-server-dom-turbopack"]

/-- A parsed JSON value, the result of a successful `JSON.parse`. -/
inductive Json where
  | null
  | bool (b : Bool)
  | num (n : Int)
  | str (s : String)
  | arr (elems : List Json)
  | obj (fields : List (String × Json))

/-- Property access `j.k` on a JSON value. -/
def jget : Json → String → Option Json
  | .obj fields, k => fields.lookup k
  | _, _ => none

/-- A truthy string-valued property (`info.version`, `info.resolved`). -/
def jStrField (info : Json) (k : String) : Option String :=
  match jget info k with
  | some (.str s) => if s != "" then some s else none
  | _ => none

/-- JS truthiness of a JSON value. -/
def jTruthy : Json → Bool
  | .null => false
  | .bool b => b
  | .num n => n != 0
  | .str s => s != ""
  | .arr _ => true
  | .obj _ => true

/-- `Object.entries`: fields of an object, indexed elements of an array. -/
def jEntries : Json → List (String × Json)
  | .obj fields => fields
  | .arr xs => (xs.enum).map fun p => (Nat.repr p.1, p.2)
  | _ => []

/-- `packagePath.replace(/^node_modules\//, "")`: strip one leading
`node_modules/` prefix. -/
def stripNodeModules (s : String) : String :=
  if ("node_modules/".data).isPrefixOf s.data then String.mk (s.data.drop 13) else s

mutual

/-- `extractNpmDependencies(deps, results)` of `lockfile-scanner.js`:
depth-first walk of the npm lockfile v1 `dependencies` tree. -/
def extractNpmDependencies : Json → List LfEntry
  | .obj fields => extractNpmFields fields
  | .arr xs => extractNpmElems xs
  | _ => []

/-- One `[name, info]` entry of the v1 walk: emit the entry for a
watch-listed name with a truthy version, then recurse into
`info.dependencies`. -/
def extractNpmFields : List (String × Json) → List LfEntry
  | [] => []
  | (name, info) :: rest =>
    (match jStrField info "version" with
     | some ver =>
       if REACT_PACKAGES.contains name then
         [{ name := name, version := ver, resolved := jStrField info "resolved" }]
       else []
     | none => []) ++ extractNpmInto info ++ extractNpmFields rest

/-- Array values enumerate with numeric keys, which are never
watch-listed; only the recursion into each element's `dependencies` remains. -/
def extractNpmElems : List Json → List LfEntry
  | [] => []
  | x :: rest => extractNpmInto x ++ extractNpmElems rest

/-- `if (info.dependencies) extractNpmDependencies(info.dependencies)`. -/
def extractNpmInto : Json → List LfEntry
  | .obj fields => extractNpmDeps fields
  | _ => []

/-- Find the `dependencies` property of `info` and recurse when truthy. -/
def extractNpmDeps : List (String × Json) → List LfEntry
  | [] => []
  | (k, v) :: rest =>
    if k = "dependencies" then (if jTruthy v then extractNpmDependencies v else [])
    else extractNpmDeps rest

end

/-- The lockfile v2/v3 part of `parseNpmLockfile`: walk `content.packages`,
strip the `node_modules/` prefix, keep watch-listed names with a version. -/
def npmEntriesV2 (content : Json) : List LfEntry :=
  match jget content "packages" with
  | some p =>
    if jTruthy p then
      (jEntries p).filterMap fun entry =>
        let packageName := stripNodeModules entry.1
        match jStrField entry.2 "version" with
        | some ver =>
          if packageName != "" && REACT_PACKAGES.contains packageName then
            some { name := packageName, version := ver,
                   resolved := jStrField entry.2 "resolved" }
          else none
        | none => none
    else []
  | none => []

/-- The lockfile v1 part of `parseNpmLockfile`: walk `content.dependencies`. -/
def npmEntriesV1 (content : Json) : List LfEntry :=
  match jget content "dependencies" with
  | some d => if jTruthy d then extractNpmDependencies d else []
  | none => []

/-- `parseNpmLockfile(lockfilePath)`: the `try`/`catch` around
`JSON.parse(fs.readFileSync(...))` is modelled by the `Except` input; any
exception at that boundary yields the empty list. -/
def parseNpmLockfile (raw : Except String Json) : List LfEntry :=
  match raw with
  | .error _ => []
  | .ok content => npmEntriesV2 content ++ npmEntriesV1 content

/-- `:?\s*$`: an optional colon, then only whitespace. -/
def yarnColonWs : List Char → Bool
  | ':' :: r => r.all isWsChar
  | t => t.all isWsChar

/-- The `[^"]*"?:?\s*$` tail of the yarn package-declaration pattern:
either the rest is quote-free, or everything after the first quote is an
optional colon followed by whitespace. -/
def yarnAfterAt (r : List Char) : Bool :=
  if r.contains '"' then
    yarnColonWs ((r.dropWhile fun c => c != '"').drop 1)
  else true

/-- The `^"?([^@\s]+)@...` capture attempt without the optional quote:
a maximal nonempty run of non-`@`, non-whitespace characters followed by
`@`, with the rest of the line matching `[^"]*"?:?\s*$`. -/
def yarnNameAt (l : List Char) : Option (List Char) :=
  let name := l.takeWhile fun c => c != '@' && !(isWsChar c)
  let rest := l.drop name.length
  match name, rest with
  | [], _ => none
  | _ :: _, '@' :: r2 => if yarnAfterAt r2 then some name else none
  | _, _ => none

/-- The yarn package-declaration regex `^"?([^@\s]+)@[^"]*"?:?\s*$`:
try consuming the optional leading quote first, then without it. -/
def yarnPackageLineName (l : List Char) : Option (List Char) :=
  match l with
  | '"' :: rest =>
    (match yarnNameAt rest with
     | some n => some n
     | none => yarnNameAt l)
  | _ => yarnNameAt l

/-- The yarn version-line regex `^\s+version\s+"([^"]+)"`. -/
def yarnVersionLine (l : List Char) : Option String :=
  match l with
  | c :: rest =>
    if isWsChar c then
      match rest.dropWhile isWsChar with
      | 'v' :: 'e' :: 'r' :: 's' :: 'i' :: 'o' :: 'n' :: r2 =>
        (match r2 with
         | d :: r3 =>
           if isWsChar d then
             match r3.dropWhile isWsChar with
             | '"' :: r4 =>
               (match r4.takeWhile (fun ch => ch != '"'), r4.dropWhile (fun ch => ch != '"') with
                | [], _ => none
                | v :: vs, '"' :: _ => some (String.mk (v :: vs))
                | _, _ => none)
             | _ => none
           else none
         | [] => none)
      | _ => none
    else none
  | [] => none

/-- The line loop of `parseYarnLockfile`: a package-declaration line sets
or clears the `currentPackage` cursor; under an active cursor the next
version line emits one entry and clears the cursor. -/
def parseYarnLines : List String → Option String → List LfEntry
  | [], _ => []
  | line :: rest, current =>
    match yarnPackageLineName line.data with
    | some nameChars =>
      let nm := String.mk nameChars
      parseYarnLines rest (if REACT_PACKAGES.contains nm then some nm else none)
    | none =>
      match current with
      | some p =>
        (match yarnVersionLine line.data with
         | some v => { name := p, version := v, resolved := none } :: parseYarnLines rest none
         | none => parseYarnLines rest (some p))
      | none => parseYarnLines rest none

/-- `parseYarnLockfile(lockfilePath)`: the `try`/`catch` around the file
read is modelled by the `Except` input. -/
def parseYarnLockfile (raw : Except String String) : List LfEntry :=
  match raw with
  | .error _ => []
  | .ok content => parseYarnLines (content.splitOn "\n") none

/-- The pnpm per-package regex ``^\s*['/]name@([^:(/\s]+)``: leading
whitespace, a quote-or-slash, the literal package name, `@`, then a
nonempty capture of characters outside `:(/` and whitespace. -/
def pnpmMatchLine (packageName : String) (l : List Char) : Option String :=
  match l.dropWhile isWsChar with
  | c :: r1 =>
    if c == '\'' || c == '/' then
      if (packageName.data).isPrefixOf r1 then
        match r1.drop packageName.length with
        | '@' :: r2 =>
          (match r2.takeWhile (fun ch => ch != ':' && ch != '(' && ch != '/' && !(isWsChar ch)) with
           | [] => none
           | v :: vs => some (String.mk (v :: vs)))
        | _ => none
      else none
    else none
  | [] => none

/-- One line of `parsePnpmLockfile`: every watch-listed name is tried
against the line, in watch-list order. -/
def parsePnpmLine (l : String) : List LfEntry :=
  REACT_PACKAGES.filterMap fun pn =>
    match pnpmMatchLine pn l.data with
    | some v => some { name := pn, version := v, resolved := none }
    | none => none

/-- `parsePnpmLockfile(lockfilePath)`: the `try`/`catch` around the file
read is modelled by the `Except` input. -/
def parsePnpmLockfile (raw : Except String String) : List LfEntry :=
  match raw with
  | .error _ => []
  | .ok content => ((content.splitOn "\n").map parsePnpmLine).flatten

/-- A `getPatchedVersion` result: `{recommended, alternative?, note?}`. -/
structure PatchInfo where
  recommended : String
  alternative : Option String
  note : Option String

/-- One advisory module as consumed by `analyzePackageJson`
(`lib/index.js`): id, severity, affected packages, and the two rule
functions. The five concrete advisory modules live outside the analyzed
sources, so advisories are passed in as values. -/
structure Advisory where
  id : String
  severity : String
  packages : List String
  isVulnerable : String → String → Bool
  getPatchedVersion : String → String → Option PatchInfo

/-- `getAllPackages()` of the vulnerability registry: the set-union of
every advisory's package list, in insertion order. -/
def getAllPackages (vulns : List Advisory) : List String :=
  vulns.foldl
    (fun acc v => v.packages.foldl (fun a p => if a.contains p then a else a ++ [p]) acc)
    []

/-- The advisory loop of `analyzePackageJson`: each advisory covering the
package whose `isVulnerable` check is positive contributes one
`affectedCves` record. -/
def affectedCvesFor (vulns : List Advisory) (packageName version : String) : List CveMatch :=
  vulns.filterMap fun vuln =>
    if vuln.packages.contains packageName && vuln.isVulnerable packageName version then
      let patch := vuln.getPatchedVersion packageName version
      some { id := vuln.id
             severity := vuln.severity
             patchedVersion := optTruthy (patch.map (·.recommended))
             alternative := optTruthy (patch.bind (·.alternative))
             note := optTruthy (patch.bind (·.note)) }
    else none

/-- Property access `deps[name]` on a dependency map (JS object keys are
unique, so first match). -/
def depLookup : List (String × String) → String → Option String
  | [], _ => none
  | (a, b) :: rest, k => if k = a then some b else depLookup rest k

/-- `{...pkg.dependencies, ...pkg.devDependencies}[name]`: the spread
merge lets `devDependencies` override `dependencies`. -/
def allDepsGet (deps devDeps : List (String × String)) (n : String) : Option String :=
  match depLookup devDeps n with
  | some v => some v
  | none => depLookup deps n

/-- The note text of the UNKNOWN-advisory path in `analyzePackageJson`. -/
def unknownNote : String :=
  "Could not determine installed version - run \"npm install\" first, or pin to a safe version"

/-- The body of `analyzePackageJson`'s per-package loop (`lib/index.js`
lines 27-84) for one watched package name: resolve the declared specifier
(falling back to the installed version for unparseable / unparsed / ranged
specifiers), collect matched advisories, and emit at most one record —
either the matched-advisories record, or the synthesized UNKNOWN record
when nothing matched, the declared specifier is unparseable, and no
installed version was found. A falsy (absent or empty) dependency entry is
skipped by the `if (!allDeps[packageName]) continue` guard. -/
def checkOnePackage (vulns : List Advisory) (getInstalled : String → Option String)
    (deps devDeps : List (String × String)) (packageName : String) : Option VulnRecord :=
  match allDepsGet deps devDeps packageName with
  | none => none
  | some declared =>
    if declared == "" then none
    else
      let shouldCheckInstalled :=
        isUnparseableVersionSpec declared || (parseVersion declared).isNone ||
          hasRangeSpecifier declared
      let installedVersion := if shouldCheckInstalled then getInstalled packageName else none
      let useInstalled := truthy installedVersion
      let version := if useInstalled then installedVersion.getD declared else declared
      let displayVersion :=
        if useInstalled then declared ++ " (installed: " ++ installedVersion.getD "" ++ ")"
        else declared
      match affectedCvesFor vulns packageName version with
      | [] =>
        if isUnparseableVersionSpec declared && !useInstalled then
          some { package := packageName
                 current := declared
                 cves := [{ id := "UNKNOWN", severity := "unknown",
                            patchedVersion := some "15.5.8",
                            alternative := none, note := none }]
                 patched := some "15.5.8"
                 note := some unknownNote
                 inDeps := truthy (depLookup deps packageName)
                 inDevDeps := truthy (depLookup devDeps packageName) }
        else none
      | c :: cs =>
        some { package := packageName
               current := displayVersion
               cves := c :: cs
               patched := none
               note := none
               inDeps := truthy (depLookup deps packageName)
               inDevDeps := truthy (depLookup devDeps packageName) }

/-- The full per-file loop of `analyzePackageJson` over the watched
packages, with the filesystem read abstracted to the two dependency maps. -/
def analyzePackageJsonDeps (vulns : List Advisory) (getInstalled : String → Option String)
    (deps devDeps : List (String × String)) : List VulnRecord :=
  (getAllPackages vulns).filterMap (checkOnePackage vulns getInstalled deps devDeps)

/-- A `package.json` object as `applyFixes` sees it: the two dependency
maps plus every other field, carried verbatim. -/
structure PackageManifest where
  dependencies : List (String × String)
  devDependencies : List (String × String)
  rest : List (String × Json)

/-- `pkg.dependencies[fix.package] = newVersion`: overwrite the value at
an existing key (JS object assignment on a present key). -/
def setDepValue (m : List (String × String)) (k v : String) : List (String × String) :=
  m.map fun kv => if kv.1 = k then (kv.1, v) else kv

/-- The `dependencies` half of one `applyFixes` iteration:
`if (fix.inDeps && pkg.dependencies?.[fix.package]) { ... = newVersion }`. -/
def applyFixDeps (pkg : PackageManifest) (modified : Bool) (fix : Fix) (p : String) :
    PackageManifest × Bool :=
  if fix.inDeps && truthy (depLookup pkg.dependencies fix.package) then
    ({ pkg with dependencies := setDepValue pkg.dependencies fix.package p }, true)
  else (pkg, modified)

/-- The `devDependencies` half of one `applyFixes` iteration. -/
def applyFixDevDeps (pkg : PackageManifest) (modified : Bool) (fix : Fix) (p : String) :
    PackageManifest × Bool :=
  if fix.inDevDeps && truthy (depLookup pkg.devDependencies fix.package) then
    ({ pkg with devDependencies := setDepValue pkg.devDependencies fix.package p }, true)
  else (pkg, modified)

/-- One iteration of `applyFixes`' loop (`lib/index.js` lines 150-164):
skip fixes without a truthy patched version; otherwise pin the exact
patched version into whichever dependency block declares the package. -/
def applyOneFix (pkg : PackageManifest) (modified : Bool) (fix : Fix) :
    PackageManifest × Bool :=
  match fix.patched with
  | none => (pkg, modified)
  | some p =>
    if p == "" then (pkg, modified)
    else
      let step1 := applyFixDeps pkg modified fix p
      applyFixDevDeps step1.1 step1.2 fix p

/-- `applyFixes(pkgPath, fixes)` (`lib/index.js`): fold the fixes over the
manifest; the returned flag is `modified`, which alone gates the
`fs.writeFileSync` call. -/
def applyFixes (pkg : PackageManifest) (fixes : List Fix) : PackageManifest × Bool :=
  fixes.foldl (fun acc fix => applyOneFix acc.1 acc.2 fix) (pkg, false)

/-- Claim C1 (code bug): the claim states that for every package with at
least one matched advisory, the Fix's target version is, under
`compareVersions`, at least every non-none recommended version — for both
`computeMinimalFixes` and `analyzeLockfile`. The lockfile reduction
compares candidates by major/minor/patch only, so with matched advisories
recommending `15.6.0-canary.58` and `15.6.0-canary.59` it keeps
`15.6.0-canary.58`, strictly below the recommended `15.6.0-canary.59`
(`compareVersions` returns a positive value); the manifest planner
`computeMinimalFixes`' reduction (`highestPatched`) returns
`15.6.0-canary.59` on the same recommendations, as the claim demands. -/
theorem claim_C1_lockfile_target_below_recommended :
    analyzeLockfile
        (fun _ _ =>
          [{ id := "CVE-2025-66478", severity := "critical", description := "RCE",
             patchedVersion := some "15.6.0-canary.58", alternative := none, note := none },
           { id := "CVE-2025-55184", severity := "high", description := "DoS",
             patchedVersion := some "15.6.0-canary.59", alternative := none, note := none }])
        { lockfile := "package-lock.json", path := "p",
          packages := [{ name := "next", version := "15.6.0-canary.0", resolved := none }] }
      = some { lockfile := "package-lock.json", path := "p",
               vulnerabilities :=
                 [{ package := "next", currentVersion := "15.6.0-canary.0",
                    patchedVersion := some "15.6.0-canary.58",
                    cves := ["CVE-2025-66478", "CVE-2025-55184"],
                    severity := "critical", resolved := none }] }
    ∧ compareVersions "15.6.0-canary.59" "15.6.0-canary.58" > 0
    ∧ highestPatched
        [{ id := "CVE-2025-66478", severity := "critical",
           patchedVersion := some "15.6.0-canary.58", alternative := none, note := none },
         { id := "CVE-2025-55184", severity := "high",
           patchedVersion := some "15.6.0-canary.59", alternative := none, note := none }]
      = some "15.6.0-canary.59" := by
  decide

/-- Claim C2: with one finding for package `next` whose matched advisories
recommend `15.6.0-canary.58`, `15.6.0-canary.59` and `15.6.0-canary.59`,
`computeMinimalFixes` plans `targetVersion = "15.6.0-canary.59"` (the
sequence-number maximum at the shared major.minor.patch triple) and carries
all matched advisory ids. -/
theorem claim_C2_planner_canary_sequence_max :
    computeMinimalFixes
        [{ path := "package.json", name := "app",
           vulnerabilities :=
             [{ package := "next", current := "15.6.0-canary.0",
                cves :=
                  [{ id := "CVE-2025-66478", severity := "critical",
                     patchedVersion := some "15.6.0-canary.58",
                     alternative := none, note := none },
                   { id := "CVE-2025-55184", severity := "high",
                     patchedVersion := some "15.6.0-canary.59",
                     alternative := none, note := none },
                   { id := "CVE-2025-67779", severity := "high",
                     patchedVersion := some "15.6.0-canary.59",
                     alternative := none, note := none }],
                patched := none, note := none, inDeps := true, inDevDeps := false }] }]
      = [{ path := "package.json", name := "app",
           fixes :=
             [{ package := "next", current := "15.6.0-canary.0",
                patched := some "15.6.0-canary.59",
                cves := ["CVE-2025-66478", "CVE-2025-55184", "CVE-2025-67779"],
                note := none, alternative := none,
                inDeps := true, inDevDeps := false }] }] := by
  decide

/-- Claim C3: the classification table of `hasUnsupportedRange` on the ten
listed inputs, and the fixed evaluation order of its four checks — hyphen,
OR, x-range, less-than — where the first matching check determines the
reason. -/
theorem claim_C3_classifyUnsupportedRange_table_and_order :
    (hasUnsupportedRange "<16.0.0" = some .lessThanRange ∧
     hasUnsupportedRange "15.0.0 - 16.0.0" = some .hyphenRange ∧
     hasUnsupportedRange "^15.0.0 || ^16.0.0" = some .orRange ∧
     hasUnsupportedRange "15.x" = some .xRange ∧
     hasUnsupportedRange "15.3.x" = some .xRange ∧
     hasUnsupportedRange "15.*" = some .xRange ∧
     hasUnsupportedRange "^15.3.0" = none ∧
     hasUnsupportedRange "~15.3.0" = none ∧
     hasUnsupportedRange ">=15.3.0" = none ∧
     hasUnsupportedRange ">15.3.0" = none ∧
     hasUnsupportedRange "15.3.0" = none) ∧
    ∀ s : String,
      (hyphenRangePattern s = true → hasUnsupportedRange s = some .hyphenRange) ∧
      (hyphenRangePattern s = false → orRangePattern s = true →
        hasUnsupportedRange s = some .orRange) ∧
      (hyphenRangePattern s = false → orRangePattern s = false →
        xRangePattern s = true → hasUnsupportedRange s = some .xRange) ∧
      (hyphenRangePattern s = false → orRangePattern s = false →
        xRangePattern s = false → lessThanPattern s = true →
        hasUnsupportedRange s = some .lessThanRange) ∧
      (hyphenRangePattern s = false → orRangePattern s = false →
        xRangePattern s = false → lessThanPattern s = false →
        hasUnsupportedRange s = none) := by
  refine ⟨by decide, fun s => ?_⟩
  have hempty : hyphenRangePattern "" = false ∧ orRangePattern "" = false ∧
      xRangePattern "" = false ∧ lessThanPattern "" = false := by decide
  refine ⟨fun h1 => ?_, fun h1 h2 => ?_, fun h1 h2 h3 => ?_,
    fun h1 h2 h3 h4 => ?_, fun h1 h2 h3 h4 => ?_⟩
  · have hs : ¬(s = "") := fun h => by rw [h] at h1; exact absurd h1 (by simp [hempty.1])
    simp [hasUnsupportedRange, hs, h1]
  · have hs : ¬(s = "") := fun h => by rw [h] at h2; exact absurd h2 (by simp [hempty.2.1])
    simp [hasUnsupportedRange, hs, h1, h2]
  · have hs : ¬(s = "") := fun h => by rw [h] at h3; exact absurd h3 (by simp [hempty.2.2.1])
    simp [hasUnsupportedRange, hs, h1, h2, h3]
  · have hs : ¬(s = "") := fun h => by rw [h] at h4; exact absurd h4 (by simp [hempty.2.2.2])
    simp [hasUnsupportedRange, hs, h1, h2, h3, h4]
  · by_cases hs : s = ""
    · simp [hasUnsupportedRange, hs]
    · simp [hasUnsupportedRange, hs, h1, h2, h3, h4]

/-- Claim C4: `applyVersionPrefix spec v` is `v` verbatim exactly when
`hasUnsupportedRange` reports an unsupported range, and otherwise is the
operator extracted by `getVersionPrefix` concatenated with `v`; the
extracted operator is always one of `^`, `~`, `>=`, `>` or the empty
string, and a leading `<` or `<=` is never extracted. -/
theorem claim_C4_reconstructSpecifier :
    ∀ spec v : String,
      (hasUnsupportedRange spec ≠ none → applyVersionPrefix spec v = v) ∧
      (hasUnsupportedRange spec = none →
        applyVersionPrefix spec v = getVersionPrefix spec ++ v) ∧
      (getVersionPrefix spec = "^" ∨ getVersionPrefix spec = "~" ∨
        getVersionPrefix spec = ">=" ∨ getVersionPrefix spec = ">" ∨
        getVersionPrefix spec = "") ∧
      (∀ r : String, spec = "<" ++ r → getVersionPrefix spec = "") ∧
      (∀ r : String, spec = "<=" ++ r → getVersionPrefix spec = "") := by
  intro spec v
  refine ⟨fun h => ?_, fun h => ?_, ?_, ?_, ?_⟩
  · rcases hu : hasUnsupportedRange spec with _ | r
    · exact absurd hu h
    · simp [applyVersionPrefix, hu]
  · simp [applyVersionPrefix, h]
  · rcases hd : spec.data with _ | ⟨c, rest⟩
    · simp [getVersionPrefix, hd]
    · simp only [getVersionPrefix, hd]
      split_ifs <;> simp
  · intro r h
    subst h
    obtain ⟨rd⟩ := r
    rfl
  · intro r h
    subst h
    obtain ⟨rd⟩ := r
    rfl

/-- Claim C9: each lock-file parser is a total function of its input, and
an exception at the file-read / `JSON.parse` boundary (the `Except.error`
case, produced by the source's `try`/`catch`) yields the empty entry list
rather than propagating. -/
theorem claim_C9_parsers_total_on_malformed_input :
    ∀ msg : String,
      parseNpmLockfile (Except.error msg) = [] ∧
      parseYarnLockfile (Except.error msg) = [] ∧
      parsePnpmLockfile (Except.error msg) = [] := by
  intro msg
  exact ⟨rfl, rfl, rfl⟩

/-- Claim C5: for parseable versions sharing a major.minor.patch triple,
`compareVersions` orders the channels canary < rc < stable; within the
same non-stable channel the smaller sequence number compares lower; and at
identical triple, channel and sequence the comparison is `0`. -/
theorem claim_C5_compare_channel_rank_and_sequence :
    ∀ (a b : String) (va vb : ParsedVersion),
      parseVersion a = some va → parseVersion b = some vb →
      va.major = vb.major → va.minor = vb.minor → va.patch = vb.patch →
      ((∀ i j, va.channel = .canary i → vb.channel = .rc j →
          compareVersions a b < 0) ∧
       (∀ i, va.channel = .canary i → vb.channel = .stable →
          compareVersions a b < 0) ∧
       (∀ i, va.channel = .rc i → vb.channel = .stable →
          compareVersions a b < 0) ∧
       (∀ i j, va.channel = .canary i → vb.channel = .canary j → i < j →
          compareVersions a b < 0) ∧
       (∀ i j, va.channel = .rc i → vb.channel = .rc j → i < j →
          compareVersions a b < 0) ∧
       (∀ i, va.channel = .canary i → vb.channel = .canary i →
          compareVersions a b = 0) ∧
       (∀ i, va.channel = .rc i → vb.channel = .rc i →
          compareVersions a b = 0) ∧
       (va.channel = .stable → vb.channel = .stable →
          compareVersions a b = 0)) := by
  intro a b va vb ha hb h1 h2 h3
  have hc : compareVersions a b = compareParsed va vb := by
    simp [compareVersions, ha, hb]
  refine ⟨fun i j hca hcb => ?_, fun i hca hcb => ?_, fun i hca hcb => ?_,
    fun i j hca hcb hij => ?_, fun i j hca hcb hij => ?_,
    fun i hca hcb => ?_, fun i hca hcb => ?_, fun hca hcb => ?_⟩ <;>
    · rw [hc]
      simp only [compareParsed, h1, h2, h3, hca, hcb, channelOrder]
      norm_num
      all_goals omega

/-- Concrete instances of claim C5: canary below rc, a smaller canary
sequence below a larger one, and equality at identical channel/sequence,
all at the shared triple 1.2.3. -/
theorem claim_C5_witness :
    compareVersions "1.2.3-canary.5" "1.2.3-rc.0" < 0 ∧
    compareVersions "1.2.3-canary.5" "1.2.3-canary.7" < 0 ∧
    compareVersions "1.2.3-rc.2" "1.2.3-rc.2" = 0 := by
  refine ⟨?_, ?_, ?_⟩
  · exact (claim_C5_compare_channel_rank_and_sequence
      "1.2.3-canary.5" "1.2.3-rc.0"
      ⟨1, 2, 3, .canary 5, "1.2.3-canary.5"⟩ ⟨1, 2, 3, .rc 0, "1.2.3-rc.0"⟩
      (by decide) (by decide) rfl rfl rfl).1 5 0 rfl rfl
  · exact (claim_C5_compare_channel_rank_and_sequence
      "1.2.3-canary.5" "1.2.3-canary.7"
      ⟨1, 2, 3, .canary 5, "1.2.3-canary.5"⟩ ⟨1, 2, 3, .canary 7, "1.2.3-canary.7"⟩
      (by decide) (by decide) rfl rfl rfl).2.2.2.1 5 7 rfl rfl (by omega)
  · exact (claim_C5_compare_channel_rank_and_sequence
      "1.2.3-rc.2" "1.2.3-rc.2"
      ⟨1, 2, 3, .rc 2, "1.2.3-rc.2"⟩ ⟨1, 2, 3, .rc 2, "1.2.3-rc.2"⟩
      (by decide) (by decide) rfl rfl rfl).2.2.2.2.2.2.1 2 rfl rfl

/-- An advisory whose `isVulnerable` check never fires, used to exercise
the analyzer paths where no advisory matches a watched package. -/
def noMatchAdvisory : Advisory :=
  { id := "CVE-2025-66478", severity := "critical", packages := ["next"],
    isVulnerable := fun _ _ => false, getPatchedVersion := fun _ _ => none }

/-- Counterexample to claim C6 as stated: the declared specifier `""` is
classified unparseable by `isUnparseableVersionSpec`, no installed version
is obtainable and no advisory matches, yet the analysis emits no
vulnerability entry at all for the watched package `next`, because the
`if (!allDeps[packageName]) continue` guard skips falsy (empty-string)
dependency values before the UNKNOWN path is reached. -/
theorem claim_C6_counterexample_empty_specifier :
    isUnparseableVersionSpec "" = true ∧
    getAllPackages [noMatchAdvisory] = ["next"] ∧
    affectedCvesFor [noMatchAdvisory] "next" "" = [] ∧
    checkOnePackage [noMatchAdvisory] (fun _ => none) [("next", "")] [] "next" = none ∧
    analyzePackageJsonDeps [noMatchAdvisory] (fun _ => none) [("next", "")] [] = [] := by
  decide

/-- Claim C6 (amended: the declared specifier must additionally be truthy,
i.e. non-empty — an empty-string dependency value is skipped by the
analyzer's falsiness guard): a watched package whose non-empty declared
specifier is classified unparseable, whose installed version cannot be
obtained, and for which no advisory matched, yields exactly one
vulnerability entry, whose single CVE record has id `"UNKNOWN"`, severity
`"unknown"` and non-none recommended version `"15.5.8"`, and which carries
the explanatory note — the package is not silently reported as safe. -/
theorem claim_C6_unknown_entry_for_unparseable (vulns : List Advisory)
    (getInstalled : String → Option String) (deps devDeps : List (String × String))
    (packageName declared : String)
    (hdep : allDepsGet deps devDeps packageName = some declared)
    (hne : declared ≠ "")
    (hunp : isUnparseableVersionSpec declared = true)
    (hinst : getInstalled packageName = none)
    (hcves : affectedCvesFor vulns packageName declared = []) :
    checkOnePackage vulns getInstalled deps devDeps packageName =
      some { package := packageName, current := declared,
             cves := [{ id := "UNKNOWN", severity := "unknown",
                        patchedVersion := some "15.5.8",
                        alternative := none, note := none }],
             patched := some "15.5.8", note := some unknownNote,
             inDeps := truthy (depLookup deps packageName),
             inDevDeps := truthy (depLookup devDeps packageName) } := by
  have hbe : (declared == "") = false := by
    simpa using hne
  simp [checkOnePackage, hdep, hbe, hunp, hinst, hcves, truthy]

/-- Concrete instance of claim C6: `next` declared as `latest` with no
installed version and no matching advisory produces the UNKNOWN entry. -/
theorem claim_C6_witness :
    checkOnePackage [noMatchAdvisory] (fun _ => none) [("next", "latest")] [] "next" =
      some { package := "next", current := "latest",
             cves := [{ id := "UNKNOWN", severity := "unknown",
                        patchedVersion := some "15.5.8",
                        alternative := none, note := none }],
             patched := some "15.5.8", note := some unknownNote,
             inDeps := true, inDevDeps := false } := by
  have h := claim_C6_unknown_entry_for_unparseable [noMatchAdvisory] (fun _ => none)
    [("next", "latest")] [] "next" "latest" rfl (by decide) (by decide) rfl (by decide)
  exact h.trans (by decide)

/-- Claim C7: the declared specifier `14.x` is an x-range for
`hasUnsupportedRange` but is not unparseable for
`isUnparseableVersionSpec`; hence, when no installed version resolves and
no advisory matches, the per-package analysis takes neither the matched
path nor the UNKNOWN path and produces no vulnerability entry. -/
theorem claim_C7_xrange_skips_unknown_path (vulns : List Advisory)
    (getInstalled : String → Option String) (deps devDeps : List (String × String))
    (packageName : String)
    (hdep : allDepsGet deps devDeps packageName = some "14.x")
    (hinst : getInstalled packageName = none)
    (hcves : affectedCvesFor vulns packageName "14.x" = []) :
    checkOnePackage vulns getInstalled deps devDeps packageName = none ∧
    hasUnsupportedRange "14.x" = some .xRange ∧
    isUnparseableVersionSpec "14.x" = false := by
  refine ⟨?_, by decide, by decide⟩
  have h0 : ("14.x" == "") = false := by decide
  have h1 : isUnparseableVersionSpec "14.x" = false := by decide
  have h2 : (parseVersion "14.x").isNone = true := by decide
  simp [checkOnePackage, hdep, h0, h1, h2, hinst, hcves, truthy]

/-- Concrete instance of claim C7: `next` declared as `14.x` with no
installed version and no matching advisory yields no entry. -/
theorem claim_C7_witness :
    checkOnePackage [noMatchAdvisory] (fun _ => none) [("next", "14.x")] [] "next" = none ∧
    hasUnsupportedRange "14.x" = some .xRange ∧
    isUnparseableVersionSpec "14.x" = false :=
  claim_C7_xrange_skips_unknown_path [noMatchAdvisory] (fun _ => none)
    [("next", "14.x")] [] "next" rfl rfl (by decide)

/-- The `name@version` key of an emitted vulnerable-package record. -/
def lfRecordKey (r : LfVulnPkg) : String := r.package ++ "@" ++ r.currentVersion

/-- The key of an emitted record is the key of the entry it came from. -/
theorem lfRecordKey_mkRecord (e : LfEntry) (c : LfCve) (cs : List LfCve) :
    lfRecordKey (lfMkRecord e c cs) = lfKey e := rfl

/-- Once a key is in the `seenPackages` set, the rest of the
`analyzeLockfile` scan never emits a record with that key. -/
theorem lfLoop_seen_key_absent (checkPkg : String → String → List LfCve)
    (entries : List LfEntry) :
    ∀ (seen : List String) (k : String), seen.contains k = true →
      (analyzeLockfileLoop checkPkg entries seen).countP
        (fun r => lfRecordKey r == k) = 0 := by
  induction entries with
  | nil => intro seen k _; simp [analyzeLockfileLoop]
  | cons e rest ih =>
    intro seen k hk
    by_cases hs : seen.contains (lfKey e) = true
    · simp only [analyzeLockfileLoop, hs, if_true]
      exact ih seen k hk
    · have hs' : seen.contains (lfKey e) = false := by simpa using hs
      have hne : ¬(lfKey e = k) := by
        intro h
        rw [h, hk] at hs'
        exact Bool.noConfusion hs'
      have hmem : k ∈ seen := by simpa using hk
      have hcontains : (lfKey e :: seen).contains k = true := by simp [hmem]
      rcases hc : checkPkg e.name e.version with _ | ⟨c, cs⟩
      · simp only [analyzeLockfileLoop, hs', Bool.false_eq_true, if_false, hc]
        exact ih (lfKey e :: seen) k hcontains
      · simp only [analyzeLockfileLoop, hs', Bool.false_eq_true, if_false, hc,
          List.countP_cons, lfRecordKey_mkRecord]
        rw [ih (lfKey e :: seen) k hcontains]
        simp [hne]

/-- Every `analyzeLockfile` scan emits at most one record per
`name@version` key. -/
theorem lfLoop_key_count_le_one (checkPkg : String → String → List LfCve)
    (entries : List LfEntry) :
    ∀ (seen : List String) (k : String),
      (analyzeLockfileLoop checkPkg entries seen).countP
        (fun r => lfRecordKey r == k) ≤ 1 := by
  induction entries with
  | nil => intro seen k; simp [analyzeLockfileLoop]
  | cons e rest ih =>
    intro seen k
    by_cases hs : seen.contains (lfKey e) = true
    · simp only [analyzeLockfileLoop, hs, if_true]
      exact ih seen k
    · have hs' : seen.contains (lfKey e) = false := by simpa using hs
      rcases hc : checkPkg e.name e.version with _ | ⟨c, cs⟩
      · simp only [analyzeLockfileLoop, hs', Bool.false_eq_true, if_false, hc]
        exact ih (lfKey e :: seen) k
      · simp only [analyzeLockfileLoop, hs', Bool.false_eq_true, if_false, hc,
          List.countP_cons, lfRecordKey_mkRecord]
        by_cases hk : lfKey e = k
        · have hcontains : (lfKey e :: seen).contains k = true := by simp [hk]
          rw [lfLoop_seen_key_absent checkPkg rest (lfKey e :: seen) k hcontains]
          simp [hk]
        · have hkb : (lfKey e == k) = false := beq_eq_false_iff_ne.mpr hk
          simpa [hkb] using ih (lfKey e :: seen) k

/-- Claim C8: for every lockfile scan input, `analyzeLockfile` emits at
most one vulnerable-package record per `(package name, resolved version)`
pair, however many times the pair occurs among the parsed entries — the
`seenPackages` dedup collapses identical `name@version` keys. -/
theorem claim_C8_lockfile_dedup :
    ∀ (checkPkg : String → String → List LfCve) (entries : List LfEntry) (n v : String),
      (analyzeLockfileLoop checkPkg entries []).countP
        (fun r => r.package == n && r.currentVersion == v) ≤ 1 := by
  intro checkPkg entries n v
  have hmono : (analyzeLockfileLoop checkPkg entries []).countP
        (fun r => r.package == n && r.currentVersion == v)
      ≤ (analyzeLockfileLoop checkPkg entries []).countP
        (fun r => lfRecordKey r == n ++ "@" ++ v) := by
    apply List.countP_mono_left
    intro r _ hr
    have h1 : r.package = n := by
      have := (Bool.and_eq_true _ _).mp hr
      exact beq_iff_eq.mp this.1
    have h2 : r.currentVersion = v := by
      have := (Bool.and_eq_true _ _).mp hr
      exact beq_iff_eq.mp this.2
    simp [lfRecordKey, h1, h2]
  exact le_trans hmono (lfLoop_key_count_le_one checkPkg entries [] (n ++ "@" ++ v))


theorem setDepValue_cons (a b p v : String) (rest : List (String × String)) :
    setDepValue ((a, b) :: rest) p v =
      (if a = p then (a, v) else (a, b)) :: setDepValue rest p v := rfl

theorem depLookup_cons (a b k : String) (rest : List (String × String)) :
    depLookup ((a, b) :: rest) k = if k = a then some b else depLookup rest k := rfl

theorem depLookup_setDepValue_ne (p v k : String) (hk : ¬(k = p)) :
    ∀ m : List (String × String), depLookup (setDepValue m p v) k = depLookup m k := by
  intro m
  induction m with
  | nil => rfl
  | cons kv rest ih =>
    obtain ⟨a, b⟩ := kv
    rw [setDepValue_cons]
    by_cases hap : a = p
    · have hka : ¬(k = a) := fun h => hk (h.trans hap)
      rw [if_pos hap, depLookup_cons, depLookup_cons, if_neg hka, if_neg hka]
      exact ih
    · rw [if_neg hap, depLookup_cons, depLookup_cons]
      by_cases hka : k = a
      · rw [if_pos hka, if_pos hka]
      · rw [if_neg hka, if_neg hka]
        exact ih

theorem depLookup_setDepValue_cases (p v k w : String) :
    ∀ m : List (String × String),
      depLookup (setDepValue m p v) k = some w →
      depLookup m k = some w ∨ (k = p ∧ w = v) := by
  intro m
  induction m with
  | nil => intro h; exact absurd h (by simp [setDepValue, depLookup])
  | cons kv rest ih =>
    obtain ⟨a, b⟩ := kv
    rw [setDepValue_cons]
    by_cases hap : a = p
    · rw [if_pos hap, depLookup_cons, depLookup_cons]
      by_cases hka : k = a
      · rw [if_pos hka, if_pos hka]
        intro h
        right
        exact ⟨hka.trans hap, (Option.some.injEq _ _ ▸ h).symm⟩
      · rw [if_neg hka, if_neg hka]
        exact ih
    · rw [if_neg hap, depLookup_cons, depLookup_cons]
      by_cases hka : k = a
      · rw [if_pos hka, if_pos hka]
        exact fun h => Or.inl h
      · rw [if_neg hka, if_neg hka]
        exact ih


theorem applyFixDeps_devDependencies (pkg : PackageManifest) (m : Bool) (f : Fix) (p : String) :
    (applyFixDeps pkg m f p).1.devDependencies = pkg.devDependencies := by
  unfold applyFixDeps
  split <;> rfl

theorem applyFixDeps_rest (pkg : PackageManifest) (m : Bool) (f : Fix) (p : String) :
    (applyFixDeps pkg m f p).1.rest = pkg.rest := by
  unfold applyFixDeps
  split <;> rfl

theorem applyFixDeps_frame (pkg : PackageManifest) (m : Bool) (f : Fix) (p k : String)
    (hk : ¬(k = f.package)) :
    depLookup (applyFixDeps pkg m f p).1.dependencies k = depLookup pkg.dependencies k := by
  unfold applyFixDeps
  split
  · exact depLookup_setDepValue_ne f.package p k hk pkg.dependencies
  · rfl

theorem applyFixDeps_provenance (pkg : PackageManifest) (m : Bool) (f : Fix) (p k w : String)
    (h : depLookup (applyFixDeps pkg m f p).1.dependencies k = some w) :
    depLookup pkg.dependencies k = some w ∨ (f.package = k ∧ w = p) := by
  unfold applyFixDeps at h
  split at h
  · rcases depLookup_setDepValue_cases f.package p k w pkg.dependencies h with h' | ⟨h1, h2⟩
    · exact Or.inl h'
    · exact Or.inr ⟨h1.symm, h2⟩
  · exact Or.inl h

theorem applyFixDevDeps_dependencies (pkg : PackageManifest) (m : Bool) (f : Fix) (p : String) :
    (applyFixDevDeps pkg m f p).1.dependencies = pkg.dependencies := by
  unfold applyFixDevDeps
  split <;> rfl

theorem applyFixDevDeps_rest (pkg : PackageManifest) (m : Bool) (f : Fix) (p : String) :
    (applyFixDevDeps pkg m f p).1.rest = pkg.rest := by
  unfold applyFixDevDeps
  split <;> rfl

theorem applyFixDevDeps_frame (pkg : PackageManifest) (m : Bool) (f : Fix) (p k : String)
    (hk : ¬(k = f.package)) :
    depLookup (applyFixDevDeps pkg m f p).1.devDependencies k =
      depLookup pkg.devDependencies k := by
  unfold applyFixDevDeps
  split
  · exact depLookup_setDepValue_ne f.package p k hk pkg.devDependencies
  · rfl

theorem applyFixDevDeps_provenance (pkg : PackageManifest) (m : Bool) (f : Fix) (p k w : String)
    (h : depLookup (applyFixDevDeps pkg m f p).1.devDependencies k = some w) :
    depLookup pkg.devDependencies k = some w ∨ (f.package = k ∧ w = p) := by
  unfold applyFixDevDeps at h
  split at h
  · rcases depLookup_setDepValue_cases f.package p k w pkg.devDependencies h with h' | ⟨h1, h2⟩
    · exact Or.inl h'
    · exact Or.inr ⟨h1.symm, h2⟩
  · exact Or.inl h

theorem applyOneFix_patched_none (pkg : PackageManifest) (m : Bool) (f : Fix)
    (h : f.patched = none) : applyOneFix pkg m f = (pkg, m) := by
  unfold applyOneFix
  rw [h]

theorem applyOneFix_rest (pkg : PackageManifest) (m : Bool) (f : Fix) :
    (applyOneFix pkg m f).1.rest = pkg.rest := by
  unfold applyOneFix
  rcases f.patched with _ | p
  · rfl
  · dsimp only
    split
    · rfl
    · rw [applyFixDevDeps_rest, applyFixDeps_rest]

theorem applyOneFix_frame (pkg : PackageManifest) (m : Bool) (f : Fix) (k : String)
    (hne : ¬(f.package = k ∧ f.patched ≠ none)) :
    depLookup (applyOneFix pkg m f).1.dependencies k = depLookup pkg.dependencies k ∧
    depLookup (applyOneFix pkg m f).1.devDependencies k = depLookup pkg.devDependencies k := by
  unfold applyOneFix
  rcases hfp : f.patched with _ | p
  · exact ⟨rfl, rfl⟩
  · have hkp : ¬(k = f.package) := by
      intro h
      exact hne ⟨h.symm, by rw [hfp]; exact Option.some_ne_none p⟩
    dsimp only
    split
    · exact ⟨rfl, rfl⟩
    · constructor
      · rw [applyFixDevDeps_dependencies, applyFixDeps_frame _ _ _ _ _ hkp]
      · rw [applyFixDevDeps_frame _ _ _ _ _ hkp, applyFixDeps_devDependencies]

theorem applyOneFix_deps_provenance (pkg : PackageManifest) (m : Bool) (f : Fix) (k w : String)
    (h : depLookup (applyOneFix pkg m f).1.dependencies k = some w) :
    depLookup pkg.dependencies k = some w ∨ (f.package = k ∧ f.patched = some w) := by
  unfold applyOneFix at h
  rcases hfp : f.patched with _ | p
  · rw [hfp] at h
    exact Or.inl h
  · rw [hfp] at h
    dsimp only at h
    split at h
    · exact Or.inl h
    · rw [applyFixDevDeps_dependencies] at h
      rcases applyFixDeps_provenance _ _ _ _ _ _ h with h' | ⟨h1, h2⟩
      · exact Or.inl h'
      · exact Or.inr ⟨h1, congrArg some h2.symm⟩

theorem applyOneFix_devDeps_provenance (pkg : PackageManifest) (m : Bool) (f : Fix) (k w : String)
    (h : depLookup (applyOneFix pkg m f).1.devDependencies k = some w) :
    depLookup pkg.devDependencies k = some w ∨ (f.package = k ∧ f.patched = some w) := by
  unfold applyOneFix at h
  rcases hfp : f.patched with _ | p
  · rw [hfp] at h
    exact Or.inl h
  · rw [hfp] at h
    dsimp only at h
    split at h
    · exact Or.inl h
    · rcases applyFixDevDeps_provenance _ _ _ _ _ _ h with h' | ⟨h1, h2⟩
      · rw [applyFixDeps_devDependencies] at h'
        exact Or.inl h'
      · exact Or.inr ⟨h1, congrArg some h2.symm⟩


theorem applyFixesLoop_rest (fixes : List Fix) :
    ∀ acc : PackageManifest × Bool,
      (fixes.foldl (fun acc fix => applyOneFix acc.1 acc.2 fix) acc).1.rest = acc.1.rest := by
  induction fixes with
  | nil => intro acc; rfl
  | cons f rest ih =>
    intro acc
    simp only [List.foldl_cons]
    rw [ih (applyOneFix acc.1 acc.2 f)]
    exact applyOneFix_rest acc.1 acc.2 f

theorem applyFixesLoop_noop (fixes : List Fix) :
    ∀ acc : PackageManifest × Bool, (∀ f ∈ fixes, f.patched = none) →
      fixes.foldl (fun acc fix => applyOneFix acc.1 acc.2 fix) acc = acc := by
  induction fixes with
  | nil => intro acc _; rfl
  | cons f rest ih =>
    intro acc hall
    obtain ⟨pkg, m⟩ := acc
    simp only [List.foldl_cons]
    rw [applyOneFix_patched_none pkg m f (hall f (List.mem_cons_self f rest))]
    exact ih (pkg, m) fun g hg => hall g (List.mem_cons_of_mem f hg)

theorem applyFixesLoop_frame (k : String) (fixes : List Fix) :
    ∀ acc : PackageManifest × Bool,
      (∀ f ∈ fixes, ¬(f.package = k ∧ f.patched ≠ none)) →
      depLookup
          (fixes.foldl (fun acc fix => applyOneFix acc.1 acc.2 fix) acc).1.dependencies k =
        depLookup acc.1.dependencies k ∧
      depLookup
          (fixes.foldl (fun acc fix => applyOneFix acc.1 acc.2 fix) acc).1.devDependencies k =
        depLookup acc.1.devDependencies k := by
  induction fixes with
  | nil => intro acc _; exact ⟨rfl, rfl⟩
  | cons f rest ih =>
    intro acc hall
    simp only [List.foldl_cons]
    have hstep := applyOneFix_frame acc.1 acc.2 f k (hall f (List.mem_cons_self f rest))
    have hrest := ih (applyOneFix acc.1 acc.2 f) fun g hg => hall g (List.mem_cons_of_mem f hg)
    exact ⟨hrest.1.trans hstep.1, hrest.2.trans hstep.2⟩

theorem applyFixesLoop_deps_provenance (k w : String) (fixes : List Fix) :
    ∀ acc : PackageManifest × Bool,
      depLookup
          (fixes.foldl (fun acc fix => applyOneFix acc.1 acc.2 fix) acc).1.dependencies k =
        some w →
      depLookup acc.1.dependencies k = some w ∨
        ∃ f ∈ fixes, f.package = k ∧ f.patched = some w := by
  induction fixes with
  | nil => intro acc h; exact Or.inl h
  | cons f rest ih =>
    intro acc h
    simp only [List.foldl_cons] at h
    rcases ih (applyOneFix acc.1 acc.2 f) h with h' | ⟨g, hg, hgk⟩
    · rcases applyOneFix_deps_provenance acc.1 acc.2 f k w h' with h'' | hf
      · exact Or.inl h''
      · exact Or.inr ⟨f, List.mem_cons_self f rest, hf⟩
    · exact Or.inr ⟨g, List.mem_cons_of_mem f hg, hgk⟩

theorem applyFixesLoop_devDeps_provenance (k w : String) (fixes : List Fix) :
    ∀ acc : PackageManifest × Bool,
      depLookup
          (fixes.foldl (fun acc fix => applyOneFix acc.1 acc.2 fix) acc).1.devDependencies k =
        some w →
      depLookup acc.1.devDependencies k = some w ∨
        ∃ f ∈ fixes, f.package = k ∧ f.patched = some w := by
  induction fixes with
  | nil => intro acc h; exact Or.inl h
  | cons f rest ih =>
    intro acc h
    simp only [List.foldl_cons] at h
    rcases ih (applyOneFix acc.1 acc.2 f) h with h' | ⟨g, hg, hgk⟩
    · rcases applyOneFix_devDeps_provenance acc.1 acc.2 f k w h' with h'' | hf
      · exact Or.inl h''
      · exact Or.inr ⟨f, List.mem_cons_self f rest, hf⟩
    · exact Or.inr ⟨g, List.mem_cons_of_mem f hg, hgk⟩

/-- Claim C10: `applyFixes` rewrites only `dependencies`/`devDependencies`
entries of packages carrying a fix with a non-none patched version, writing
that patched version verbatim (exact pin, no operator prefix); every other
manifest field is returned unchanged, and when no fix carries a patched
version the manifest is returned unchanged with `modified = false`, so the
file is never written. -/
theorem claim_C10_applyFixes_frame :
    ∀ (pkg : PackageManifest) (fixes : List Fix),
      (applyFixes pkg fixes).1.rest = pkg.rest ∧
      ((∀ f ∈ fixes, f.patched = none) → applyFixes pkg fixes = (pkg, false)) ∧
      (∀ k : String, (¬∃ f ∈ fixes, f.package = k ∧ f.patched ≠ none) →
        depLookup (applyFixes pkg fixes).1.dependencies k = depLookup pkg.dependencies k ∧
        depLookup (applyFixes pkg fixes).1.devDependencies k =
          depLookup pkg.devDependencies k) ∧
      (∀ k w : String,
        depLookup (applyFixes pkg fixes).1.dependencies k = some w →
        depLookup pkg.dependencies k = some w ∨
          ∃ f ∈ fixes, f.package = k ∧ f.patched = some w) ∧
      (∀ k w : String,
        depLookup (applyFixes pkg fixes).1.devDependencies k = some w →
        depLookup pkg.devDependencies k = some w ∨
          ∃ f ∈ fixes, f.package = k ∧ f.patched = some w) := by
  intro pkg fixes
  refine ⟨?_, ?_, ?_, ?_, ?_⟩
  · exact applyFixesLoop_rest fixes (pkg, false)
  · intro hall
    exact applyFixesLoop_noop fixes (pkg, false) hall
  · intro k hno
    exact applyFixesLoop_frame k fixes (pkg, false) fun f hf hand => hno ⟨f, hf, hand⟩
  · intro k w h
    exact applyFixesLoop_deps_provenance k w fixes (pkg, false) h
  · intro k w h
    exact applyFixesLoop_devDeps_provenance k w fixes (pkg, false) h


end FixReact2Shell
